import Mathlib

/-!
Verification of the spike-to-current transformers of
`SpikingFlow/connection/transform.py`.

The embedding models the three transformer variants
(`SpikeCurrent`, `ExpDecayCurrent`, `STPTransformer`) as Lean structures over
exact rationals.  Tensors are modelled by `PTensor`: either a Python scalar
number (the `int`/`float` fields such as the initial `self.i = 0` or
`self.x = 1.0`) or a one-dimensional tensor, i.e. a list of rationals.
Elementwise binary operations between two 1-d tensors follow PyTorch's
broadcasting rule for one dimension: equal lengths combine elementwise, a
length-1 tensor broadcasts against the other operand, and any other pair of
lengths raises a shape error (the `RuntimeError` PyTorch raises for `[4]`
against `[5]`); a scalar broadcasts against a tensor.  An in-place
augmented assignment (`self.i += ...`, `self.x += ...`, `self.u += ...`)
on a tensor is stricter: the right-hand side must broadcast to the
left-hand side's shape without expanding it (a length-1 right-hand side
broadcasts, but a longer right-hand side against a shorter state raises),
while on a Python scalar it simply rebinds the attribute.  Every spike
batch is a 1-d boolean tensor.

A `forward` call is modelled as a function returning the object state after
the call together with `Except PyErr` of the returned current: Python
statements are translated in source order, and a raise inside `forward`
returns the state as mutated up to the failing statement (for both stateful
variants the only mutating statements are the `self.x += ...`,
`self.u += ...`, `self.i += ...` assignments, whose right-hand sides are
computed before the assignment happens).
-/

namespace SpikingFlow

/-- Error raised by tensor operations on incompatibly shaped operands,
modelling the `RuntimeError` PyTorch raises on a 1-d shape mismatch. -/
inductive PyErr where
  | shapeMismatch
deriving DecidableEq

/-- Model of a Python numeric value as it appears in `transform.py`:
either a plain Python scalar number, or a 1-d torch tensor of numbers. -/
inductive PTensor where
  | scalar (v : ℚ)
  | tensor (l : List ℚ)
deriving DecidableEq

/-- Conversion of a boolean spike to its floating value, `in_spike.float()`. -/
def boolFloat (b : Bool) : ℚ := if b then 1 else 0

/-- A 1-d boolean spike batch converted to a float tensor. -/
def PTensor.ofBools (bs : List Bool) : PTensor := .tensor (bs.map boolFloat)

/-- Elementwise application of a unary operation (negation, or an operation
against a known Python scalar such as division by `self.tau`). -/
def PTensor.map1 (f : ℚ → ℚ) : PTensor → PTensor
  | .scalar v => .scalar (f v)
  | .tensor l => .tensor (l.map f)

/-- Elementwise binary operation with broadcasting, following PyTorch's
rule for 1-d tensors: scalars broadcast, equal lengths combine
elementwise, a length-1 tensor broadcasts against the other operand, and
any other combination of lengths raises a shape error. -/
def PTensor.bin (f : ℚ → ℚ → ℚ) : PTensor → PTensor → Except PyErr PTensor
  | .scalar a, .scalar b => .ok (.scalar (f a b))
  | .scalar a, .tensor l => .ok (.tensor (l.map (fun v => f a v)))
  | .tensor l, .scalar b => .ok (.tensor (l.map (fun v => f v b)))
  | .tensor l, .tensor m =>
      if l.length = m.length then .ok (.tensor (List.zipWith f l m))
      else if l.length = 1 then .ok (.tensor (m.map (fun v => f (l.headD 0) v)))
      else if m.length = 1 then .ok (.tensor (l.map (fun v => f v (m.headD 0))))
      else .error .shapeMismatch

/-- Augmented assignment `lhs += rhs` (and similar) as performed by the
source: on a Python-number left-hand side it rebinds the attribute, which
is the ordinary broadcasting operation; on a tensor left-hand side it is
the in-place torch operation, which requires the right-hand side to
broadcast to the left-hand side's shape without expanding it — equal
lengths or a length-1 (or scalar) right-hand side succeed, any longer
right-hand side raises a shape error. -/
def PTensor.binInPlace (f : ℚ → ℚ → ℚ) : PTensor → PTensor → Except PyErr PTensor
  | .scalar a, b => PTensor.bin f (.scalar a) b
  | .tensor l, .scalar b => .ok (.tensor (l.map (fun v => f v b)))
  | .tensor l, .tensor m =>
      if m.length = l.length then .ok (.tensor (List.zipWith f l m))
      else if m.length = 1 then .ok (.tensor (l.map (fun v => f v (m.headD 0))))
      else .error .shapeMismatch

/-- Predicate stating that every numeric value held by a `PTensor` equals
`q` (for a scalar, the scalar itself; for a tensor, every component). -/
def PTensor.allVal (q : ℚ) : PTensor → Prop
  | .scalar v => v = q
  | .tensor l => ∀ v ∈ l, v = q

/-! Variant 1: `SpikeCurrent` (the spec's IdentityScale). -/

/-- Embedding of class `SpikeCurrent`: the only field is `amplitude`. -/
structure SpikeCurrent where
  amplitude : ℚ
deriving DecidableEq

/-- Embedding of `SpikeCurrent.__init__(amplitude)`. -/
def SpikeCurrent.init (amplitude : ℚ) : SpikeCurrent := ⟨amplitude⟩

/-- Embedding of `SpikeCurrent.forward`:
`return in_spike.float() * self.amplitude` (tensor times Python scalar,
which broadcasts elementwise and cannot fail; the class is stateless). -/
def SpikeCurrent.forward (c : SpikeCurrent) (in_spike : List Bool) : PTensor :=
  .tensor (in_spike.map (fun b => boolFloat b * c.amplitude))

/-- Embedding of `SpikeCurrent.reset`: inherited from `BaseTransformer`,
whose body is `pass`, so it leaves the (stateless) object unchanged. -/
def SpikeCurrent.reset (c : SpikeCurrent) : SpikeCurrent := c

/-! Variant 2: `ExpDecayCurrent` (the spec's ExponentialDecayCurrent). -/

/-- Embedding of class `ExpDecayCurrent`: fields `tau`, `amplitude` and the
mutable state `i`. -/
structure ExpDecayCurrent where
  tau : ℚ
  amplitude : ℚ
  i : PTensor
deriving DecidableEq

/-- Embedding of `ExpDecayCurrent.__init__(tau, amplitude)`: it stores the
parameters and sets `self.i = 0` (a Python scalar). -/
def ExpDecayCurrent.init (tau : ℚ) (amplitude : ℚ) : ExpDecayCurrent :=
  { tau := tau, amplitude := amplitude, i := .scalar 0 }

/-- Construction of `ExpDecayCurrent` viewed as a fallible call (a Python
constructor may raise).  The body of `__init__` performs no validation of
any parameter, so construction always succeeds, whatever `tau` is. -/
def ExpDecayCurrent.initE (tau : ℚ) (amplitude : ℚ) : Except PyErr ExpDecayCurrent :=
  .ok (ExpDecayCurrent.init tau amplitude)

/-- Right-hand side of the `self.i += ...` statement of
`ExpDecayCurrent.forward`:
`i_decay * (1 - in_spike_float) + self.amplitude * in_spike_float`
with `i_decay = -self.i / self.tau`. -/
def ExpDecayCurrent.rhs (c : ExpDecayCurrent) (s : PTensor) : Except PyErr PTensor :=
  let i_decay := c.i.map1 (fun v => -v / c.tau)
  match PTensor.bin (fun a b => a - b) (.scalar 1) s with
  | .error e => .error e
  | .ok gate =>
    match PTensor.bin (fun a b => a * b) i_decay gate with
    | .error e => .error e
    | .ok dpart =>
      match PTensor.bin (fun a b => a * b) (.scalar c.amplitude) s with
      | .error e => .error e
      | .ok apart => PTensor.bin (fun a b => a + b) dpart apart

/-- Embedding of `ExpDecayCurrent.forward(in_spike)`.  The single mutating
statement is `self.i += ...`; its right-hand side is computed first, so a
shape error raised while computing it leaves `self.i` untouched.  The
method then returns `self.i`, the freshly stored value itself. -/
def ExpDecayCurrent.forward (c : ExpDecayCurrent) (in_spike : List Bool) :
    ExpDecayCurrent × Except PyErr PTensor :=
  let s := PTensor.ofBools in_spike
  match c.rhs s with
  | .error e => (c, .error e)
  | .ok d =>
    match PTensor.binInPlace (fun a b => a + b) c.i d with
    | .error e => (c, .error e)
    | .ok i2 => ({ c with i := i2 }, .ok i2)

/-- Embedding of `ExpDecayCurrent.reset`: `self.i = 0`, i.e. the state is
replaced by the Python scalar `0` (any tensor shape established earlier is
discarded). -/
def ExpDecayCurrent.reset (c : ExpDecayCurrent) : ExpDecayCurrent :=
  { c with i := .scalar 0 }

/-! Variant 3: `STPTransformer` (the spec's ShortTermPlasticity). -/

/-- Embedding of class `STPTransformer`: parameters `u_base`, `tau_f`,
`tau_d` and the mutable state variables `x` and `u`. -/
structure STPTransformer where
  u_base : ℚ
  tau_f : ℚ
  tau_d : ℚ
  x : PTensor
  u : PTensor
deriving DecidableEq

/-- Embedding of `STPTransformer.__init__(u_base, tau_f, tau_d)`: stores the
parameters and sets `self.x = 1.0`, `self.u = self.u_base` (Python floats). -/
def STPTransformer.init (u_base : ℚ) (tau_f : ℚ) (tau_d : ℚ) : STPTransformer :=
  { u_base := u_base, tau_f := tau_f, tau_d := tau_d,
    x := .scalar 1, u := .scalar u_base }

/-- Construction of `STPTransformer` viewed as a fallible call.  The body of
`__init__` performs no validation of any parameter, so construction always
succeeds, whatever `tau_f` and `tau_d` are. -/
def STPTransformer.initE (u_base : ℚ) (tau_f : ℚ) (tau_d : ℚ) :
    Except PyErr STPTransformer :=
  .ok (STPTransformer.init u_base tau_f tau_d)

/-- Right-hand side of the `self.x += ...` statement of
`STPTransformer.forward`:
`x_decay - self.x * in_spike_float * self.u`
with `x_decay = (1.0 - self.x) / self.tau_d`.  Note that it reads `self.u`
before `self.u` is updated. -/
def STPTransformer.xRhs (t : STPTransformer) (s : PTensor) : Except PyErr PTensor :=
  match PTensor.bin (fun a b => a - b) (.scalar 1) t.x with
  | .error e => .error e
  | .ok one_minus_x =>
    let x_decay := one_minus_x.map1 (fun v => v / t.tau_d)
    match PTensor.bin (fun a b => a * b) t.x s with
    | .error e => .error e
    | .ok xs =>
      match PTensor.bin (fun a b => a * b) xs t.u with
      | .error e => .error e
      | .ok xsu => PTensor.bin (fun a b => a - b) x_decay xsu

/-- Right-hand side of the `self.u += ...` statement of
`STPTransformer.forward`:
`u_decay + self.u_base * (1 - self.u) * in_spike_float`
with `u_decay = (self.u_base - self.u) / self.tau_f`. -/
def STPTransformer.uRhs (t : STPTransformer) (s : PTensor) : Except PyErr PTensor :=
  match PTensor.bin (fun a b => a - b) (.scalar t.u_base) t.u with
  | .error e => .error e
  | .ok ub_minus_u =>
    let u_decay := ub_minus_u.map1 (fun v => v / t.tau_f)
    match PTensor.bin (fun a b => a - b) (.scalar 1) t.u with
    | .error e => .error e
    | .ok one_minus_u =>
      let fac := one_minus_u.map1 (fun v => t.u_base * v)
      match PTensor.bin (fun a b => a * b) fac s with
      | .error e => .error e
      | .ok facs => PTensor.bin (fun a b => a + b) u_decay facs

/-- Embedding of `STPTransformer.forward(in_spike)`, statement by statement
in source order: first `self.x` is updated (its right-hand side reads the
previous value of `self.u`), then `self.u` is updated, then
`self.u * self.x * in_spike_float` — the freshly updated values — is
returned.  A raise leaves the state as mutated up to the failing
statement. -/
def STPTransformer.forward (t : STPTransformer) (in_spike : List Bool) :
    STPTransformer × Except PyErr PTensor :=
  let s := PTensor.ofBools in_spike
  match t.xRhs s with
  | .error e => (t, .error e)
  | .ok dx =>
    match PTensor.binInPlace (fun a b => a + b) t.x dx with
    | .error e => (t, .error e)
    | .ok x2 =>
      let t1 : STPTransformer := { t with x := x2 }
      match t1.uRhs s with
      | .error e => (t1, .error e)
      | .ok du =>
        match PTensor.binInPlace (fun a b => a + b) t1.u du with
        | .error e => (t1, .error e)
        | .ok u2 =>
          let t2 : STPTransformer := { t1 with u := u2 }
          match PTensor.bin (fun a b => a * b) u2 x2 with
          | .error e => (t2, .error e)
          | .ok ux =>
            match PTensor.bin (fun a b => a * b) ux s with
            | .error e => (t2, .error e)
            | .ok outv => (t2, .ok outv)

/-- Embedding of `STPTransformer.reset`:
`if not isinstance(self.x, float): self.x.fill_(1.0)` and
`if not isinstance(self.u, float): self.u.fill_(self.u_base)`.
A state variable that is still a Python float is left untouched; a tensor
state variable is filled in place, its shape preserved. -/
def STPTransformer.reset (t : STPTransformer) : STPTransformer :=
  { t with
    x := match t.x with
         | .scalar v => .scalar v
         | .tensor l => .tensor (l.map (fun _ => 1))
    u := match t.u with
         | .scalar v => .scalar v
         | .tensor l => .tensor (l.map (fun _ => t.u_base)) }

/-! Per-unit scalar dynamics, used to state elementwise characterizations
of the tensor-level `forward` methods. -/

/-- Per-unit update of `ExpDecayCurrent.forward` for one state value `i`
and one spike float `s`. -/
def expStep (tau amplitude i s : ℚ) : ℚ := i + ((-i / tau) * (1 - s) + amplitude * s)

/-- Per-unit update of `self.x` in `STPTransformer.forward`; `u` is the
previous step's utilization value. -/
def stpStepX (tau_d x u s : ℚ) : ℚ := x + ((1 - x) / tau_d - x * s * u)

/-- Per-unit update of `self.u` in `STPTransformer.forward`. -/
def stpStepU (u_base tau_f u s : ℚ) : ℚ :=
  u + ((u_base - u) / tau_f + u_base * (1 - u) * s)

/-- Per-unit returned current of `STPTransformer.forward`: the product of
the post-update `u`, the post-update `x` and the spike float. -/
def stpStepOut (u_base tau_f tau_d x u s : ℚ) : ℚ :=
  stpStepU u_base tau_f u s * stpStepX tau_d x u s * s

/-- Three-list elementwise combination (truncating at the shortest list). -/
def zip3Q (f : ℚ → ℚ → ℚ → ℚ) : List ℚ → List ℚ → List ℚ → List ℚ
  | a :: as, b :: bs, c :: cs => f a b c :: zip3Q f as bs cs
  | _, _, _ => []

/-! Multi-step runs.  `run` threads the object through a list of `forward`
calls, keeping whatever state the object has after each call (a failing
call leaves the state it produced, which for a shape mismatch is the
unmodified previous state); `runOuts` collects the returned value of every
call. -/

/-- State after a sequence of `ExpDecayCurrent.forward` calls. -/
def ExpDecayCurrent.run (c : ExpDecayCurrent) : List (List Bool) → ExpDecayCurrent
  | [] => c
  | sp :: rest => ((c.forward sp).1).run rest

/-- Outputs of a sequence of `ExpDecayCurrent.forward` calls. -/
def ExpDecayCurrent.runOuts (c : ExpDecayCurrent) :
    List (List Bool) → List (Except PyErr PTensor)
  | [] => []
  | sp :: rest => (c.forward sp).2 :: ((c.forward sp).1).runOuts rest

/-- State after a sequence of `STPTransformer.forward` calls. -/
def STPTransformer.run (t : STPTransformer) : List (List Bool) → STPTransformer
  | [] => t
  | sp :: rest => ((t.forward sp).1).run rest

/-- Outputs of a sequence of `STPTransformer.forward` calls. -/
def STPTransformer.runOuts (t : STPTransformer) :
    List (List Bool) → List (Except PyErr PTensor)
  | [] => []
  | sp :: rest => (t.forward sp).2 :: ((t.forward sp).1).runOuts rest

/-- Outputs of a sequence of `SpikeCurrent.forward` calls (stateless). -/
def SpikeCurrent.runOuts (c : SpikeCurrent) (ss : List (List Bool)) : List PTensor :=
  ss.map c.forward

/-- Per-unit output trajectory of `ExpDecayCurrent` from state value `i`. -/
def expTraj (tau amplitude i : ℚ) : List Bool → List ℚ
  | [] => []
  | b :: bs =>
      expStep tau amplitude i (boolFloat b) ::
      expTraj tau amplitude (expStep tau amplitude i (boolFloat b)) bs

/-- Per-unit output trajectory of `STPTransformer` from state values
`x`, `u`. -/
def stpTraj (u_base tau_f tau_d x u : ℚ) : List Bool → List ℚ
  | [] => []
  | b :: bs =>
      stpStepOut u_base tau_f tau_d x u (boolFloat b) ::
      stpTraj u_base tau_f tau_d
        (stpStepX tau_d x u (boolFloat b))
        (stpStepU u_base tau_f u (boolFloat b)) bs

/-- Per-unit output trajectory of `SpikeCurrent`. -/
def spikeTraj (amplitude : ℚ) (bs : List Bool) : List ℚ :=
  bs.map (fun b => boolFloat b * amplitude)

/-! Reduction lemmas for the elementwise tensor operations. -/

theorem PTensor.bin_ss (f : ℚ → ℚ → ℚ) (a b : ℚ) :
    PTensor.bin f (.scalar a) (.scalar b) = .ok (.scalar (f a b)) := rfl

theorem PTensor.bin_st (f : ℚ → ℚ → ℚ) (a : ℚ) (l : List ℚ) :
    PTensor.bin f (.scalar a) (.tensor l) = .ok (.tensor (l.map (fun v => f a v))) := rfl

theorem PTensor.bin_ts (f : ℚ → ℚ → ℚ) (l : List ℚ) (b : ℚ) :
    PTensor.bin f (.tensor l) (.scalar b) = .ok (.tensor (l.map (fun v => f v b))) := rfl

theorem PTensor.bin_tt (f : ℚ → ℚ → ℚ) (l m : List ℚ) (h : l.length = m.length) :
    PTensor.bin f (.tensor l) (.tensor m) = .ok (.tensor (List.zipWith f l m)) := by
  simp [PTensor.bin, h]

theorem PTensor.bin_tt_ne (f : ℚ → ℚ → ℚ) (l m : List ℚ) (h : l.length ≠ m.length)
    (hl : l.length ≠ 1) (hm : m.length ≠ 1) :
    PTensor.bin f (.tensor l) (.tensor m) = .error .shapeMismatch := by
  simp [PTensor.bin, h, hl, hm]

theorem PTensor.bin_singleton_left (f : ℚ → ℚ → ℚ) (a : ℚ) (m : List ℚ)
    (hm : m.length ≠ 1) :
    PTensor.bin f (.tensor [a]) (.tensor m) = .ok (.tensor (m.map (fun v => f a v))) := by
  simp [PTensor.bin, Ne.symm hm]

theorem PTensor.bin_singleton_right (f : ℚ → ℚ → ℚ) (l : List ℚ) (b : ℚ)
    (hl : l.length ≠ 1) :
    PTensor.bin f (.tensor l) (.tensor [b]) = .ok (.tensor (l.map (fun v => f v b))) := by
  simp [PTensor.bin, hl]

theorem PTensor.binInPlace_s (f : ℚ → ℚ → ℚ) (a : ℚ) (b : PTensor) :
    PTensor.binInPlace f (.scalar a) b = PTensor.bin f (.scalar a) b := rfl

theorem PTensor.binInPlace_ts (f : ℚ → ℚ → ℚ) (l : List ℚ) (b : ℚ) :
    PTensor.binInPlace f (.tensor l) (.scalar b) = .ok (.tensor (l.map (fun v => f v b))) := rfl

theorem PTensor.binInPlace_tt (f : ℚ → ℚ → ℚ) (l m : List ℚ) (h : m.length = l.length) :
    PTensor.binInPlace f (.tensor l) (.tensor m) = .ok (.tensor (List.zipWith f l m)) := by
  simp [PTensor.binInPlace, h]

theorem PTensor.binInPlace_tt_ne (f : ℚ → ℚ → ℚ) (l m : List ℚ) (h : m.length ≠ l.length)
    (hm : m.length ≠ 1) :
    PTensor.binInPlace f (.tensor l) (.tensor m) = .error .shapeMismatch := by
  simp [PTensor.binInPlace, h, hm]

/-! Elementwise characterization of `ExpDecayCurrent.forward`. -/

theorem expFuseT (tau amp : ℚ) :
    ∀ (l : List ℚ) (bs : List Bool), l.length = bs.length →
    List.zipWith (fun a b => a + b) l
      (List.zipWith (fun a b => a + b)
        (List.zipWith (fun a b => a * b) (l.map (fun v => -v / tau))
          ((bs.map boolFloat).map (fun v => 1 - v)))
        ((bs.map boolFloat).map (fun v => amp * v)))
    = List.zipWith (fun i b => expStep tau amp i (boolFloat b)) l bs
  | [], _, _ => by simp
  | a :: l, [], h => by simp at h
  | a :: l, b :: bs, h => by
      simp only [List.map_cons, List.zipWith_cons_cons]
      refine congrArg₂ _ rfl (expFuseT tau amp l bs ?_)
      simpa using h

theorem expFuseS (tau amp v : ℚ) :
    ∀ (bs : List Bool),
    (List.zipWith (fun a b => a + b)
      (((bs.map boolFloat).map (fun w => 1 - w)).map (fun w => -v / tau * w))
      ((bs.map boolFloat).map (fun w => amp * w))).map (fun w => v + w)
    = bs.map (fun b => expStep tau amp v (boolFloat b))
  | [] => by simp
  | b :: bs => by
      simp only [List.map_cons, List.zipWith_cons_cons]
      exact congrArg₂ _ rfl (expFuseS tau amp v bs)

/-- One `forward` call of `ExpDecayCurrent` on an established (tensor) state
of matching length: it stores the elementwise `expStep` update and returns
exactly the stored tensor. -/
theorem expForward_tensor (tau amp : ℚ) (l : List ℚ) (bs : List Bool)
    (h : l.length = bs.length) :
    ExpDecayCurrent.forward ⟨tau, amp, .tensor l⟩ bs =
      (⟨tau, amp, .tensor (List.zipWith (fun i b => expStep tau amp i (boolFloat b)) l bs)⟩,
       .ok (.tensor (List.zipWith (fun i b => expStep tau amp i (boolFloat b)) l bs))) := by
  simp only [ExpDecayCurrent.forward, ExpDecayCurrent.rhs, PTensor.ofBools, PTensor.map1,
    PTensor.bin_st, PTensor.bin_ts, PTensor.bin_tt, PTensor.binInPlace_tt,
    List.length_map, List.length_zipWith, h, Nat.min_self]
  rw [expFuseT tau amp l bs h]

/-- One `forward` call of `ExpDecayCurrent` on the fresh scalar state: the
scalar broadcasts against the spike batch, the state becomes a tensor of
elementwise `expStep` updates, and exactly that tensor is returned. -/
theorem expForward_scalar (tau amp v : ℚ) (bs : List Bool) :
    ExpDecayCurrent.forward ⟨tau, amp, .scalar v⟩ bs =
      (⟨tau, amp, .tensor (bs.map (fun b => expStep tau amp v (boolFloat b)))⟩,
       .ok (.tensor (bs.map (fun b => expStep tau amp v (boolFloat b))))) := by
  simp only [ExpDecayCurrent.forward, ExpDecayCurrent.rhs, PTensor.ofBools, PTensor.map1,
    PTensor.bin_st, PTensor.bin_ts, PTensor.bin_tt, PTensor.binInPlace_s,
    List.length_map, Nat.min_self]
  rw [expFuseS tau amp v bs]

/-- A `forward` call of `ExpDecayCurrent` whose spike batch length disagrees
with the established tensor state, the batch not being of length 1 (which
would broadcast), raises a shape error and leaves the state unmodified:
for an established length other than 1 the elementwise product in the
right-hand side raises, and for an established length of 1 the in-place
`self.i += ...` raises because it cannot expand the state. -/
theorem expForward_mismatch (tau amp : ℚ) (l : List ℚ) (bs : List Bool)
    (h : l.length ≠ bs.length) (hb : bs.length ≠ 1) :
    ExpDecayCurrent.forward ⟨tau, amp, .tensor l⟩ bs =
      (⟨tau, amp, .tensor l⟩, .error .shapeMismatch) := by
  by_cases hl : l.length = 1
  · obtain ⟨a, rfl⟩ : ∃ a, l = [a] := by
      cases l with
      | nil => simp at hl
      | cons a t =>
        cases t with
        | nil => exact ⟨a, rfl⟩
        | cons c t2 => simp at hl
    simp only [ExpDecayCurrent.forward, ExpDecayCurrent.rhs, PTensor.ofBools, PTensor.map1,
      List.map_cons, List.map_nil, PTensor.bin_st, PTensor.bin_ts,
      PTensor.bin_singleton_left, PTensor.bin_tt, PTensor.binInPlace_tt_ne,
      List.length_map, List.length_zipWith, List.length_cons, List.length_nil,
      Nat.min_self, hb, ne_eq, not_false_eq_true]
  · simp only [ExpDecayCurrent.forward, ExpDecayCurrent.rhs, PTensor.ofBools, PTensor.map1,
      PTensor.bin_st, PTensor.bin_ts, PTensor.bin_tt_ne, List.length_map,
      h, hl, hb, ne_eq, not_false_eq_true]

/-! Elementwise characterization of `STPTransformer.forward`. -/

theorem zip3Q_length (f : ℚ → ℚ → ℚ → ℚ) :
    ∀ (l m k : List ℚ),
      (zip3Q f l m k).length = min l.length (min m.length k.length)
  | [], _, _ => by cases ‹List ℚ› <;> simp [zip3Q]
  | _ :: _, [], _ => by simp [zip3Q]
  | _ :: _, _ :: _, [] => by simp [zip3Q]
  | a :: l, b :: m, c :: k => by
      simp [zip3Q, zip3Q_length f l m k]
      omega

theorem stpFuseX (td : ℚ) :
    ∀ (lx lu : List ℚ) (fs : List ℚ), lx.length = fs.length → lu.length = fs.length →
    List.zipWith (fun a b => a + b) lx
      (List.zipWith (fun a b => a - b)
        ((lx.map (fun v => 1 - v)).map (fun v => v / td))
        (List.zipWith (fun a b => a * b) (List.zipWith (fun a b => a * b) lx fs) lu))
    = zip3Q (fun xv uv sv => stpStepX td xv uv sv) lx lu fs
  | [], _, _, _, _ => by simp [zip3Q]
  | a :: lx, [], fs, hx, hu => by
      cases fs with
      | nil => simp at hx
      | cons c k => simp at hu
  | a :: lx, b :: lu, [], hx, _ => by simp at hx
  | a :: lx, b :: lu, c :: fs, hx, hu => by
      simp only [List.map_cons, List.zipWith_cons_cons, zip3Q]
      refine congrArg₂ _ rfl (stpFuseX td lx lu fs ?_ ?_)
      · simpa using hx
      · simpa using hu

theorem stpFuseU (ub tf : ℚ) :
    ∀ (lu : List ℚ) (fs : List ℚ), lu.length = fs.length →
    List.zipWith (fun a b => a + b) lu
      (List.zipWith (fun a b => a + b)
        ((lu.map (fun v => ub - v)).map (fun v => v / tf))
        (List.zipWith (fun a b => a * b)
          ((lu.map (fun v => 1 - v)).map (fun v => ub * v)) fs))
    = List.zipWith (fun uv sv => stpStepU ub tf uv sv) lu fs
  | [], _, _ => by simp
  | a :: lu, [], h => by simp at h
  | a :: lu, c :: fs, h => by
      simp only [List.map_cons, List.zipWith_cons_cons]
      refine congrArg₂ _ rfl (stpFuseU ub tf lu fs ?_)
      simpa using h

theorem stpFuseOut (ub tf td : ℚ) :
    ∀ (lx lu : List ℚ) (fs : List ℚ), lx.length = fs.length → lu.length = fs.length →
    List.zipWith (fun a b => a * b)
      (List.zipWith (fun a b => a * b)
        (List.zipWith (fun uv sv => stpStepU ub tf uv sv) lu fs)
        (zip3Q (fun xv uv sv => stpStepX td xv uv sv) lx lu fs)) fs
    = zip3Q (fun xv uv sv => stpStepOut ub tf td xv uv sv) lx lu fs
  | [], _, _, _, _ => by simp [zip3Q]
  | a :: lx, [], fs, hx, hu => by
      cases fs with
      | nil => simp at hx
      | cons c k => simp at hu
  | a :: lx, b :: lu, [], hx, _ => by simp at hx
  | a :: lx, b :: lu, c :: fs, hx, hu => by
      simp only [List.zipWith_cons_cons, zip3Q]
      refine congrArg₂ _ rfl (stpFuseOut ub tf td lx lu fs ?_ ?_)
      · simpa using hx
      · simpa using hu

/-- One `forward` call of `STPTransformer` on established (tensor) state
variables of matching length: `x` is updated elementwise with `stpStepX`
reading the previous `u`, then `u` is updated elementwise with `stpStepU`,
and the returned current is the elementwise `stpStepOut`, the product of
the freshly updated values with the spike float. -/
theorem stpForward_tensor (ub tf td : ℚ) (lx lu : List ℚ) (bs : List Bool)
    (hx : lx.length = bs.length) (hu : lu.length = bs.length) :
    STPTransformer.forward ⟨ub, tf, td, .tensor lx, .tensor lu⟩ bs =
      (⟨ub, tf, td,
        .tensor (zip3Q (fun xv uv sv => stpStepX td xv uv sv) lx lu (bs.map boolFloat)),
        .tensor (List.zipWith (fun uv sv => stpStepU ub tf uv sv) lu (bs.map boolFloat))⟩,
       .ok (.tensor
         (zip3Q (fun xv uv sv => stpStepOut ub tf td xv uv sv) lx lu (bs.map boolFloat)))) := by
  have hx' : lx.length = (bs.map boolFloat).length := by simpa using hx
  have hu' : lu.length = (bs.map boolFloat).length := by simpa using hu
  simp only [STPTransformer.forward, STPTransformer.xRhs, STPTransformer.uRhs, PTensor.ofBools,
    PTensor.map1, PTensor.bin_st, PTensor.bin_ts, PTensor.bin_tt, PTensor.binInPlace_tt,
    List.length_map, List.length_zipWith, zip3Q_length, hx, hu, Nat.min_self]
  rw [stpFuseX td lx lu (bs.map boolFloat) hx' hu', stpFuseU ub tf lu (bs.map boolFloat) hu',
    stpFuseOut ub tf td lx lu (bs.map boolFloat) hx' hu']

theorem stpFuseXS (td xv uv : ℚ) :
    ∀ (fs : List ℚ),
    (((fs.map (fun w => xv * w)).map (fun w => w * uv)).map
        (fun w => (1 - xv) / td - w)).map (fun w => xv + w)
    = fs.map (fun sv => stpStepX td xv uv sv)
  | [] => by simp
  | c :: fs => by
      simp only [List.map_cons]
      exact congrArg₂ _ rfl (stpFuseXS td xv uv fs)

theorem stpFuseUS (ub tf uv : ℚ) :
    ∀ (fs : List ℚ),
    ((fs.map (fun w => ub * (1 - uv) * w)).map
        (fun w => (ub - uv) / tf + w)).map (fun w => uv + w)
    = fs.map (fun sv => stpStepU ub tf uv sv)
  | [] => by simp
  | c :: fs => by
      simp only [List.map_cons]
      exact congrArg₂ _ rfl (stpFuseUS ub tf uv fs)

theorem stpFuseOutS (ub tf td xv uv : ℚ) :
    ∀ (fs : List ℚ),
    List.zipWith (fun a b => a * b)
      (List.zipWith (fun a b => a * b)
        (fs.map (fun sv => stpStepU ub tf uv sv))
        (fs.map (fun sv => stpStepX td xv uv sv))) fs
    = fs.map (fun sv => stpStepOut ub tf td xv uv sv)
  | [] => by simp
  | c :: fs => by
      simp only [List.map_cons, List.zipWith_cons_cons]
      exact congrArg₂ _ rfl (stpFuseOutS ub tf td xv uv fs)

/-- One `forward` call of `STPTransformer` on the fresh scalar state: the
scalars broadcast against the spike batch and both state variables become
tensors of the elementwise updates, with the elementwise current
returned. -/
theorem stpForward_scalar (ub tf td xv uv : ℚ) (bs : List Bool) :
    STPTransformer.forward ⟨ub, tf, td, .scalar xv, .scalar uv⟩ bs =
      (⟨ub, tf, td,
        .tensor ((bs.map boolFloat).map (fun sv => stpStepX td xv uv sv)),
        .tensor ((bs.map boolFloat).map (fun sv => stpStepU ub tf uv sv))⟩,
       .ok (.tensor
         ((bs.map boolFloat).map (fun sv => stpStepOut ub tf td xv uv sv)))) := by
  simp only [STPTransformer.forward, STPTransformer.xRhs, STPTransformer.uRhs, PTensor.ofBools,
    PTensor.map1, PTensor.bin_ss, PTensor.bin_st, PTensor.bin_ts, PTensor.bin_tt,
    PTensor.binInPlace_s, List.length_map, List.length_zipWith, Nat.min_self]
  rw [stpFuseXS td xv uv (bs.map boolFloat), stpFuseUS ub tf uv (bs.map boolFloat),
    stpFuseOutS ub tf td xv uv (bs.map boolFloat)]

/-- A `forward` call of `STPTransformer` whose spike batch length disagrees
with the established tensor shape, the batch not being of length 1 (which
would broadcast), raises a shape error and leaves the whole state
unmodified: for an established length other than 1 the product
`self.x * in_spike_float` raises, and for an established length of 1 the
in-place `self.x += ...` raises because it cannot expand the state. -/
theorem stpForward_mismatch (ub tf td : ℚ) (lx lu : List ℚ) (bs : List Bool)
    (h : lx.length ≠ bs.length) (hb : bs.length ≠ 1) (hlen : lu.length = lx.length) :
    STPTransformer.forward ⟨ub, tf, td, .tensor lx, .tensor lu⟩ bs =
      (⟨ub, tf, td, .tensor lx, .tensor lu⟩, .error .shapeMismatch) := by
  by_cases hl : lx.length = 1
  · obtain ⟨a, rfl⟩ : ∃ a, lx = [a] := by
      cases lx with
      | nil => simp at hl
      | cons a t =>
        cases t with
        | nil => exact ⟨a, rfl⟩
        | cons c t2 => simp at hl
    obtain ⟨e, rfl⟩ : ∃ e, lu = [e] := by
      cases lu with
      | nil => simp at hlen
      | cons e t =>
        cases t with
        | nil => exact ⟨e, rfl⟩
        | cons c t2 => simp at hlen
    simp only [STPTransformer.forward, STPTransformer.xRhs, PTensor.ofBools, PTensor.map1,
      List.map_cons, List.map_nil, PTensor.bin_st, PTensor.bin_ts,
      PTensor.bin_singleton_left, PTensor.bin_singleton_right, PTensor.binInPlace_tt_ne,
      List.length_map, List.length_cons, List.length_nil, Nat.min_self, hb, ne_eq,
      not_false_eq_true]
  · simp only [STPTransformer.forward, STPTransformer.xRhs, PTensor.ofBools, PTensor.map1,
      PTensor.bin_st, PTensor.bin_tt_ne, List.length_map, h, hl, hb, ne_eq,
      not_false_eq_true]

/-! Batched runs versus per-unit trajectories. -/

/-- Spike batches feeding two units with trains `sa` and `sb` through one
batched instance: at each timestep the batch holds one spike per unit. -/
def pairIn (sa sb : List Bool) : List (List Bool) :=
  List.zipWith (fun a b => [a, b]) sa sb

/-- Spike batches feeding one unit with train `sa` through a single-unit
instance. -/
def singleIn (sa : List Bool) : List (List Bool) :=
  sa.map (fun b => [b])

theorem expRunPair (tau amp : ℚ) :
    ∀ (sa sb : List Bool) (ia ib : ℚ),
    ExpDecayCurrent.runOuts ⟨tau, amp, .tensor [ia, ib]⟩ (pairIn sa sb)
    = List.zipWith (fun va vb => Except.ok (PTensor.tensor [va, vb]))
        (expTraj tau amp ia sa) (expTraj tau amp ib sb)
  | [], sb, ia, ib => by simp [pairIn, ExpDecayCurrent.runOuts, expTraj]
  | a :: sa, [], ia, ib => by simp [pairIn, ExpDecayCurrent.runOuts, expTraj]
  | a :: sa, b :: sb, ia, ib => by
      simp only [pairIn, List.zipWith_cons_cons, ExpDecayCurrent.runOuts,
        expForward_tensor tau amp [ia, ib] [a, b] rfl, expTraj]
      exact congrArg₂ _ rfl (expRunPair tau amp sa sb _ _)

theorem expRunSingle (tau amp : ℚ) :
    ∀ (sa : List Bool) (ia : ℚ),
    ExpDecayCurrent.runOuts ⟨tau, amp, .tensor [ia]⟩ (singleIn sa)
    = (expTraj tau amp ia sa).map (fun v => Except.ok (PTensor.tensor [v]))
  | [], ia => by simp [singleIn, ExpDecayCurrent.runOuts, expTraj]
  | a :: sa, ia => by
      simp only [singleIn, List.map_cons, ExpDecayCurrent.runOuts,
        expForward_tensor tau amp [ia] [a] rfl, expTraj]
      exact congrArg₂ _ rfl (expRunSingle tau amp sa _)

theorem expRunPair0 (tau amp : ℚ) (sa sb : List Bool) :
    ExpDecayCurrent.runOuts (ExpDecayCurrent.init tau amp) (pairIn sa sb)
    = List.zipWith (fun va vb => Except.ok (PTensor.tensor [va, vb]))
        (expTraj tau amp 0 sa) (expTraj tau amp 0 sb) := by
  cases sa with
  | nil => simp [pairIn, ExpDecayCurrent.runOuts, expTraj]
  | cons a sa =>
    cases sb with
    | nil => simp [pairIn, ExpDecayCurrent.runOuts, expTraj]
    | cons b sb =>
      simp only [pairIn, List.zipWith_cons_cons, ExpDecayCurrent.runOuts,
        ExpDecayCurrent.init, expForward_scalar tau amp 0 [a, b], List.map_cons,
        List.map_nil, expTraj]
      exact congrArg₂ _ rfl (expRunPair tau amp sa sb _ _)

theorem expRunSingle0 (tau amp : ℚ) (sa : List Bool) :
    ExpDecayCurrent.runOuts (ExpDecayCurrent.init tau amp) (singleIn sa)
    = (expTraj tau amp 0 sa).map (fun v => Except.ok (PTensor.tensor [v])) := by
  cases sa with
  | nil => simp [singleIn, ExpDecayCurrent.runOuts, expTraj]
  | cons a sa =>
    simp only [singleIn, List.map_cons, ExpDecayCurrent.runOuts, ExpDecayCurrent.init,
      expForward_scalar tau amp 0 [a], List.map_nil, expTraj]
    exact congrArg₂ _ rfl (expRunSingle tau amp sa _)

theorem stpRunPair (ubase tf td : ℚ) :
    ∀ (sa sb : List Bool) (xa xb ua ub2 : ℚ),
    STPTransformer.runOuts ⟨ubase, tf, td, .tensor [xa, xb], .tensor [ua, ub2]⟩ (pairIn sa sb)
    = List.zipWith (fun va vb => Except.ok (PTensor.tensor [va, vb]))
        (stpTraj ubase tf td xa ua sa) (stpTraj ubase tf td xb ub2 sb)
  | [], sb, _, _, _, _ => by simp [pairIn, STPTransformer.runOuts, stpTraj]
  | a :: sa, [], _, _, _, _ => by simp [pairIn, STPTransformer.runOuts, stpTraj]
  | a :: sa, b :: sb, xa, xb, ua, ub2 => by
      simp only [pairIn, List.zipWith_cons_cons, STPTransformer.runOuts,
        stpForward_tensor ubase tf td [xa, xb] [ua, ub2] [a, b] rfl rfl,
        List.map_cons, List.map_nil, zip3Q, stpTraj]
      exact congrArg₂ _ rfl (stpRunPair ubase tf td sa sb _ _ _ _)

theorem stpRunSingle (ubase tf td : ℚ) :
    ∀ (sa : List Bool) (xa ua : ℚ),
    STPTransformer.runOuts ⟨ubase, tf, td, .tensor [xa], .tensor [ua]⟩ (singleIn sa)
    = (stpTraj ubase tf td xa ua sa).map (fun v => Except.ok (PTensor.tensor [v]))
  | [], _, _ => by simp [singleIn, STPTransformer.runOuts, stpTraj]
  | a :: sa, xa, ua => by
      simp only [singleIn, List.map_cons, STPTransformer.runOuts,
        stpForward_tensor ubase tf td [xa] [ua] [a] rfl rfl,
        List.map_nil, zip3Q, stpTraj]
      exact congrArg₂ _ rfl (stpRunSingle ubase tf td sa _ _)

theorem stpRunPair0 (ubase tf td : ℚ) (sa sb : List Bool) :
    STPTransformer.runOuts (STPTransformer.init ubase tf td) (pairIn sa sb)
    = List.zipWith (fun va vb => Except.ok (PTensor.tensor [va, vb]))
        (stpTraj ubase tf td 1 ubase sa) (stpTraj ubase tf td 1 ubase sb) := by
  cases sa with
  | nil => simp [pairIn, STPTransformer.runOuts, stpTraj]
  | cons a sa =>
    cases sb with
    | nil => simp [pairIn, STPTransformer.runOuts, stpTraj]
    | cons b sb =>
      simp only [pairIn, List.zipWith_cons_cons, STPTransformer.runOuts,
        STPTransformer.init, stpForward_scalar ubase tf td 1 ubase [a, b],
        List.map_cons, List.map_nil, stpTraj]
      exact congrArg₂ _ rfl (stpRunPair ubase tf td sa sb _ _ _ _)

theorem stpRunSingle0 (ubase tf td : ℚ) (sa : List Bool) :
    STPTransformer.runOuts (STPTransformer.init ubase tf td) (singleIn sa)
    = (stpTraj ubase tf td 1 ubase sa).map (fun v => Except.ok (PTensor.tensor [v])) := by
  cases sa with
  | nil => simp [singleIn, STPTransformer.runOuts, stpTraj]
  | cons a sa =>
    simp only [singleIn, List.map_cons, STPTransformer.runOuts, STPTransformer.init,
      stpForward_scalar ubase tf td 1 ubase [a], List.map_nil, stpTraj]
    exact congrArg₂ _ rfl (stpRunSingle ubase tf td sa _ _)

theorem spikeRunPair (amp : ℚ) :
    ∀ (sa sb : List Bool),
    SpikeCurrent.runOuts (SpikeCurrent.init amp) (pairIn sa sb)
    = List.zipWith (fun va vb => PTensor.tensor [va, vb])
        (spikeTraj amp sa) (spikeTraj amp sb)
  | [], sb => by simp [pairIn, SpikeCurrent.runOuts, spikeTraj]
  | a :: sa, [] => by simp [pairIn, SpikeCurrent.runOuts, spikeTraj]
  | a :: sa, b :: sb => by
      simp only [pairIn, List.zipWith_cons_cons, SpikeCurrent.runOuts, List.map_cons,
        spikeTraj]
      exact congrArg₂ _ rfl (spikeRunPair amp sa sb)

theorem spikeRunSingle (amp : ℚ) :
    ∀ (sa : List Bool),
    SpikeCurrent.runOuts (SpikeCurrent.init amp) (singleIn sa)
    = (spikeTraj amp sa).map (fun v => PTensor.tensor [v])
  | [] => by simp [singleIn, SpikeCurrent.runOuts, spikeTraj]
  | a :: sa => by
      simp only [singleIn, List.map_cons, SpikeCurrent.runOuts, spikeTraj]
      exact congrArg₂ _ rfl (spikeRunSingle amp sa)

/-! Reset semantics: parameter preservation, the reachable-state invariant
of `STPTransformer`, and idempotence. -/

theorem expForward_params (c : ExpDecayCurrent) (sp : List Bool) :
    ((c.forward sp).1).tau = c.tau ∧ ((c.forward sp).1).amplitude = c.amplitude := by
  simp only [ExpDecayCurrent.forward]
  repeat' split
  all_goals exact ⟨rfl, rfl⟩

theorem expRun_params (c : ExpDecayCurrent) :
    ∀ (ss : List (List Bool)), ((c.run ss).tau = c.tau ∧ (c.run ss).amplitude = c.amplitude)
  | [] => ⟨rfl, rfl⟩
  | sp :: rest => by
      have h1 := expForward_params c sp
      have h2 := expRun_params ((c.forward sp).1) rest
      simp only [ExpDecayCurrent.run]
      exact ⟨h2.1.trans h1.1, h2.2.trans h1.2⟩

theorem expResetAfterRun (tau amp : ℚ) (ss : List (List Bool)) :
    ((ExpDecayCurrent.init tau amp).run ss).reset = ExpDecayCurrent.init tau amp := by
  obtain ⟨h1, h2⟩ := expRun_params (ExpDecayCurrent.init tau amp) ss
  cases hr : (ExpDecayCurrent.init tau amp).run ss with
  | mk t a i =>
    rw [hr] at h1 h2
    simp only [ExpDecayCurrent.init] at h1 h2
    simp [ExpDecayCurrent.reset, ExpDecayCurrent.init, h1, h2]

theorem stpForward_params (t : STPTransformer) (sp : List Bool) :
    ((t.forward sp).1).u_base = t.u_base ∧ ((t.forward sp).1).tau_f = t.tau_f ∧
      ((t.forward sp).1).tau_d = t.tau_d := by
  simp only [STPTransformer.forward]
  repeat' split
  all_goals exact ⟨rfl, rfl, rfl⟩

theorem stpRun_params (t : STPTransformer) :
    ∀ (ss : List (List Bool)), ((t.run ss).u_base = t.u_base ∧ (t.run ss).tau_f = t.tau_f ∧
      (t.run ss).tau_d = t.tau_d)
  | [] => ⟨rfl, rfl, rfl⟩
  | sp :: rest => by
      have h1 := stpForward_params t sp
      have h2 := stpRun_params ((t.forward sp).1) rest
      simp only [STPTransformer.run]
      exact ⟨h2.1.trans h1.1, h2.2.1.trans h1.2.1, h2.2.2.trans h1.2.2⟩

/-! Broadcast of a length-1 spike batch against a longer established state:
the call succeeds in the source (torch broadcasting), acting on every unit
with the single spike value. -/

theorem expFuseB (tau amp c : ℚ) :
    ∀ (l : List ℚ),
    List.zipWith (fun a b => a + b) l
      (((l.map (fun v => -v / tau)).map (fun v => v * (1 - c))).map (fun v => v + amp * c))
    = l.map (fun i => expStep tau amp i c)
  | [] => by simp
  | a :: l => by
      simp only [List.map_cons, List.zipWith_cons_cons]
      exact congrArg₂ _ rfl (expFuseB tau amp c l)

/-- A `forward` call of `ExpDecayCurrent` on an established tensor state of
length other than 1 with a length-1 spike batch: the batch broadcasts, the
call succeeds, and every unit is updated with the single spike value. -/
theorem expForward_bcast1 (tau amp : ℚ) (l : List ℚ) (b : Bool) (hne : l.length ≠ 1) :
    ExpDecayCurrent.forward ⟨tau, amp, .tensor l⟩ [b] =
      (⟨tau, amp, .tensor (l.map (fun i => expStep tau amp i (boolFloat b)))⟩,
       .ok (.tensor (l.map (fun i => expStep tau amp i (boolFloat b))))) := by
  simp only [ExpDecayCurrent.forward, ExpDecayCurrent.rhs, PTensor.ofBools, PTensor.map1,
    List.map_cons, List.map_nil, PTensor.bin_st, PTensor.bin_ts,
    PTensor.bin_singleton_right, PTensor.binInPlace_tt, List.length_map, hne, ne_eq,
    not_false_eq_true]
  rw [expFuseB tau amp (boolFloat b) l]

theorem stpFuseXB (td c : ℚ) :
    ∀ (lx lu : List ℚ),
    List.zipWith (fun a b => a + b) lx
      (List.zipWith (fun a b => a - b)
        ((lx.map (fun v => 1 - v)).map (fun v => v / td))
        (List.zipWith (fun a b => a * b) (lx.map (fun v => v * c)) lu))
    = List.zipWith (fun xv uv => stpStepX td xv uv c) lx lu
  | [], lu => by simp
  | a :: lx, [] => by simp
  | a :: lx, e :: lu => by
      simp only [List.map_cons, List.zipWith_cons_cons]
      exact congrArg₂ _ rfl (stpFuseXB td c lx lu)

theorem stpFuseUB (ub tf c : ℚ) :
    ∀ (lu : List ℚ),
    List.zipWith (fun a b => a + b) lu
      (List.zipWith (fun a b => a + b)
        ((lu.map (fun v => ub - v)).map (fun v => v / tf))
        (((lu.map (fun v => 1 - v)).map (fun v => ub * v)).map (fun v => v * c)))
    = lu.map (fun uv => stpStepU ub tf uv c)
  | [] => by simp
  | e :: lu => by
      simp only [List.map_cons, List.zipWith_cons_cons]
      exact congrArg₂ _ rfl (stpFuseUB ub tf c lu)

theorem stpFuseOutB (ub tf td c : ℚ) :
    ∀ (lx lu : List ℚ),
    (List.zipWith (fun a b => a * b) (lu.map (fun uv => stpStepU ub tf uv c))
      (List.zipWith (fun xv uv => stpStepX td xv uv c) lx lu)).map (fun v => v * c)
    = List.zipWith (fun xv uv => stpStepOut ub tf td xv uv c) lx lu
  | [], lu => by simp
  | a :: lx, [] => by simp
  | a :: lx, e :: lu => by
      simp only [List.map_cons, List.zipWith_cons_cons]
      exact congrArg₂ _ rfl (stpFuseOutB ub tf td c lx lu)

/-- A `forward` call of `STPTransformer` on established tensor state
variables of equal length other than 1 with a length-1 spike batch: the
batch broadcasts, the call succeeds, and every unit is updated with the
single spike value. -/
theorem stpForward_bcast1 (ub tf td : ℚ) (lx lu : List ℚ) (b : Bool)
    (hlen : lu.length = lx.length) (hne : lx.length ≠ 1) :
    STPTransformer.forward ⟨ub, tf, td, .tensor lx, .tensor lu⟩ [b] =
      (⟨ub, tf, td,
        .tensor (List.zipWith (fun xv uv => stpStepX td xv uv (boolFloat b)) lx lu),
        .tensor (lu.map (fun uv => stpStepU ub tf uv (boolFloat b)))⟩,
       .ok (.tensor
         (List.zipWith (fun xv uv => stpStepOut ub tf td xv uv (boolFloat b)) lx lu))) := by
  simp only [STPTransformer.forward, STPTransformer.xRhs, STPTransformer.uRhs,
    PTensor.ofBools, PTensor.map1, List.map_cons, List.map_nil, PTensor.bin_st,
    PTensor.bin_ts, PTensor.bin_singleton_right, PTensor.bin_tt, PTensor.binInPlace_tt,
    List.length_map, List.length_zipWith, Nat.min_self, hlen, hne, ne_eq,
    not_false_eq_true]
  rw [stpFuseXB td (boolFloat b) lx lu, stpFuseUB ub tf (boolFloat b) lu,
    stpFuseOutB ub tf td (boolFloat b) lx lu]

/-- Invariant satisfied by every state of `STPTransformer` reachable through
the public interface: either both state variables are still the scalar
initial values, or both are tensors of equal length. -/
def STPGood (t : STPTransformer) : Prop :=
  (t.x = .scalar 1 ∧ t.u = .scalar t.u_base) ∨
  (∃ lx lu, t.x = .tensor lx ∧ t.u = .tensor lu ∧ lx.length = lu.length)

theorem stpForward_good (t : STPTransformer) (sp : List Bool) (h : STPGood t) :
    STPGood ((t.forward sp).1) := by
  obtain ⟨ub, tf, td, x, u⟩ := t
  rcases h with ⟨hx, hu⟩ | ⟨lx, lu, hx, hu, hlen⟩
  · simp only at hx hu
    subst hx; subst hu
    rw [stpForward_scalar ub tf td 1 ub sp]
    exact Or.inr ⟨_, _, rfl, rfl, by simp⟩
  · simp only at hx hu
    subst hx; subst hu
    by_cases hsp : lx.length = sp.length
    · rw [stpForward_tensor ub tf td lx lu sp hsp (hlen.symm.trans hsp)]
      refine Or.inr ⟨_, _, rfl, rfl, ?_⟩
      simp [zip3Q_length, hsp, hlen.symm.trans hsp]
    · by_cases hb1 : sp.length = 1
      · obtain ⟨b, rfl⟩ : ∃ b, sp = [b] := by
          cases sp with
          | nil => simp at hb1
          | cons b t =>
            cases t with
            | nil => exact ⟨b, rfl⟩
            | cons c t2 => simp at hb1
        have hne : lx.length ≠ 1 := fun hc => hsp (by rw [hc, hb1])
        rw [stpForward_bcast1 ub tf td lx lu b hlen.symm hne]
        refine Or.inr ⟨_, _, rfl, rfl, ?_⟩
        simp [List.length_zipWith, hlen, Nat.min_self]
      · rw [stpForward_mismatch ub tf td lx lu sp hsp hb1 hlen.symm]
        exact Or.inr ⟨lx, lu, rfl, rfl, hlen⟩

theorem stpRun_good (t : STPTransformer) :
    ∀ (ss : List (List Bool)), STPGood t → STPGood (t.run ss)
  | [], h => h
  | sp :: rest, h => stpRun_good ((t.forward sp).1) rest (stpForward_good t sp h)

theorem stpResetAfterRun (ub tf td : ℚ) (ss : List (List Bool)) :
    PTensor.allVal 1 (((STPTransformer.init ub tf td).run ss).reset).x ∧
      PTensor.allVal ub (((STPTransformer.init ub tf td).run ss).reset).u := by
  have hg : STPGood ((STPTransformer.init ub tf td).run ss) :=
    stpRun_good _ ss (Or.inl ⟨rfl, rfl⟩)
  have hp : ((STPTransformer.init ub tf td).run ss).u_base = ub :=
    (stpRun_params (STPTransformer.init ub tf td) ss).1
  rcases hg with ⟨hx, hu⟩ | ⟨lx, lu, hx, hu, _⟩
  · constructor
    · simp [STPTransformer.reset, hx, PTensor.allVal]
    · simp [STPTransformer.reset, hu, PTensor.allVal, hp]
  · constructor
    · simp [STPTransformer.reset, hx, PTensor.allVal]
    · simp [STPTransformer.reset, hu, PTensor.allVal, hp]

theorem expReset_idem (c : ExpDecayCurrent) : c.reset.reset = c.reset := rfl

theorem spikeReset_idem (c : SpikeCurrent) : c.reset.reset = c.reset := rfl

theorem stpReset_idem (t : STPTransformer) : t.reset.reset = t.reset := by
  obtain ⟨ub, tf, td, x, u⟩ := t
  cases x <;> cases u <;>
    simp [STPTransformer.reset, List.map_map, Function.comp]

/-! Value facts about the per-unit step functions at a no-spike step. -/

theorem expStep_zero (tau amp : ℚ) : expStep tau amp 0 0 = 0 := by
  simp [expStep]

theorem stpStepX_init (td ub : ℚ) : stpStepX td 1 ub 0 = 1 := by
  simp [stpStepX]

theorem stpStepU_init (ub tf : ℚ) : stpStepU ub tf ub 0 = ub := by
  simp [stpStepU]

theorem stpStepOut_noSpike (ub tf td xv uv : ℚ) : stpStepOut ub tf td xv uv 0 = 0 := by
  simp [stpStepOut]

/-! Claim theorems. -/

/-- C1: for `ExpDecayCurrent` with parameters `tau` and `amplitude`, one
`forward` call on any per-unit internal state and any 0/1 spike indicator
computes the new state elementwise as `i + (-i/tau) * (1 - s) + amplitude * s`,
stores it as the internal state, and returns exactly that same stored value;
this holds both on an established tensor state and on the fresh scalar
state. -/
theorem claim1_expDecay_step (tau amp : ℚ) (l : List ℚ) (bs : List Bool)
    (h : l.length = bs.length) :
    (ExpDecayCurrent.forward ⟨tau, amp, .tensor l⟩ bs =
      (⟨tau, amp, .tensor (List.zipWith (fun i b => expStep tau amp i (boolFloat b)) l bs)⟩,
       .ok (.tensor (List.zipWith (fun i b => expStep tau amp i (boolFloat b)) l bs))))
    ∧ (∀ i s : ℚ, expStep tau amp i s = i + (-i / tau) * (1 - s) + amp * s)
    ∧ ∀ v : ℚ, ExpDecayCurrent.forward ⟨tau, amp, .scalar v⟩ bs =
        (⟨tau, amp, .tensor (bs.map (fun b => expStep tau amp v (boolFloat b)))⟩,
         .ok (.tensor (bs.map (fun b => expStep tau amp v (boolFloat b))))) :=
  ⟨expForward_tensor tau amp l bs h,
   fun i s => by unfold expStep; ring,
   fun v => expForward_scalar tau amp v bs⟩

theorem claim1_witness :
    ([(5 : ℚ)].length = [true].length) ∧
    ((ExpDecayCurrent.forward ⟨2, 3, .tensor [(5 : ℚ)]⟩ [true] =
      (⟨2, 3, .tensor (List.zipWith (fun i b => expStep 2 3 i (boolFloat b)) [(5 : ℚ)] [true])⟩,
       .ok (.tensor (List.zipWith (fun i b => expStep 2 3 i (boolFloat b)) [(5 : ℚ)] [true]))))
    ∧ (∀ i s : ℚ, expStep 2 3 i s = i + (-i / 2) * (1 - s) + 3 * s)
    ∧ ∀ v : ℚ, ExpDecayCurrent.forward ⟨2, 3, .scalar v⟩ [true] =
        (⟨2, 3, .tensor ([true].map (fun b => expStep 2 3 v (boolFloat b)))⟩,
         .ok (.tensor ([true].map (fun b => expStep 2 3 v (boolFloat b)))))) :=
  ⟨rfl, claim1_expDecay_step 2 3 [(5 : ℚ)] [true] rfl⟩

/-- C2: for `STPTransformer`, one `forward` call updates `x` elementwise with
`stpStepX`, which reads the previous step's `u`, then updates `u`
elementwise with `stpStepU`, and the returned current is elementwise
`stpStepOut`, the product of the post-update `u`, the post-update `x` and
the spike gate; the per-unit formulas are exactly those of the claim, and
the output is zero on every no-spike step. -/
theorem claim2_stp_step (ub tf td : ℚ) (lx lu : List ℚ) (bs : List Bool)
    (hx : lx.length = bs.length) (hu : lu.length = bs.length) :
    (STPTransformer.forward ⟨ub, tf, td, .tensor lx, .tensor lu⟩ bs =
      (⟨ub, tf, td,
        .tensor (zip3Q (fun xv uv sv => stpStepX td xv uv sv) lx lu (bs.map boolFloat)),
        .tensor (List.zipWith (fun uv sv => stpStepU ub tf uv sv) lu (bs.map boolFloat))⟩,
       .ok (.tensor
         (zip3Q (fun xv uv sv => stpStepOut ub tf td xv uv sv) lx lu (bs.map boolFloat)))))
    ∧ (∀ x u s : ℚ, stpStepX td x u s = x + (1 - x) / td - x * s * u)
    ∧ (∀ u s : ℚ, stpStepU ub tf u s = u + (ub - u) / tf + ub * (1 - u) * s)
    ∧ (∀ x u s : ℚ, stpStepOut ub tf td x u s = stpStepU ub tf u s * stpStepX td x u s * s)
    ∧ ∀ x u : ℚ, stpStepOut ub tf td x u (boolFloat false) = 0 :=
  ⟨stpForward_tensor ub tf td lx lu bs hx hu,
   fun x u s => by unfold stpStepX; ring,
   fun u s => by unfold stpStepU; ring,
   fun _ _ _ => rfl,
   fun x u => by simp [stpStepOut, boolFloat]⟩

theorem claim2_witness :
    ([(1 : ℚ)].length = [true].length) ∧ ([(1 / 2 : ℚ)].length = [true].length) ∧
    ((STPTransformer.forward ⟨1 / 2, 50, 100, .tensor [(1 : ℚ)], .tensor [(1 / 2 : ℚ)]⟩ [true] =
      (⟨1 / 2, 50, 100,
        .tensor (zip3Q (fun xv uv sv => stpStepX 100 xv uv sv) [(1 : ℚ)] [(1 / 2 : ℚ)]
          ([true].map boolFloat)),
        .tensor (List.zipWith (fun uv sv => stpStepU (1 / 2) 50 uv sv) [(1 / 2 : ℚ)]
          ([true].map boolFloat))⟩,
       .ok (.tensor
         (zip3Q (fun xv uv sv => stpStepOut (1 / 2) 50 100 xv uv sv) [(1 : ℚ)] [(1 / 2 : ℚ)]
           ([true].map boolFloat)))))
    ∧ (∀ x u s : ℚ, stpStepX 100 x u s = x + (1 - x) / 100 - x * s * u)
    ∧ (∀ u s : ℚ, stpStepU (1 / 2) 50 u s = u + (1 / 2 - u) / 50 + 1 / 2 * (1 - u) * s)
    ∧ (∀ x u s : ℚ,
        stpStepOut (1 / 2) 50 100 x u s = stpStepU (1 / 2) 50 u s * stpStepX 100 x u s * s)
    ∧ ∀ x u : ℚ, stpStepOut (1 / 2) 50 100 x u (boolFloat false) = 0) :=
  ⟨rfl, rfl, claim2_stp_step (1 / 2) 50 100 [(1 : ℚ)] [(1 / 2 : ℚ)] [true] rfl rfl⟩

/-- C3: the claim says a spike step returns `amplitude` regardless of the
internal state before the step (and the source docstring likewise says the
current becomes `amplitude` on a spike).  The code instead adds `amplitude`
to the state: with `tau = 2`, `amplitude = 1`, a first spike step from the
fresh state returns 1, but a second consecutive spike step, taken from
state `i = 1`, returns `i + amplitude = 2`, not `amplitude = 1`. -/
theorem claim3_spike_step_adds_amplitude :
    (((ExpDecayCurrent.init 2 1).forward [true]).2 = .ok (.tensor [1]))
    ∧ ((ExpDecayCurrent.forward (((ExpDecayCurrent.init 2 1).forward [true]).1) [true]).2
        = .ok (.tensor [2]))
    ∧ (2 : ℚ) ≠ (1 : ℚ) := by
  refine ⟨?_, ?_, by norm_num⟩
  · norm_num [ExpDecayCurrent.init, expForward_scalar, expStep, boolFloat]
  · norm_num [ExpDecayCurrent.init, expForward_scalar, expForward_tensor, expStep, boolFloat,
      List.zipWith]

/-- C4 counterexample: constructing `ExpDecayCurrent` with `tau = 0` or
`tau = -1`, or `STPTransformer` with non-positive `tau_f`/`tau_d`, succeeds
(no configuration error is raised at construction), refuting the claim. -/
theorem claim4_counterexample :
    (ExpDecayCurrent.initE 0 1 = .ok (ExpDecayCurrent.init 0 1))
    ∧ (ExpDecayCurrent.initE (-1) 1 = .ok (ExpDecayCurrent.init (-1) 1))
    ∧ (STPTransformer.initE (1 / 2) 0 (-1) = .ok (STPTransformer.init (1 / 2) 0 (-1))) :=
  ⟨rfl, rfl, rfl⟩

/-- C4 amended: the constructors perform no parameter validation at all:
for every value of the time constants (non-positive included), construction
succeeds and returns the object with the parameters stored as given. -/
theorem claim4_construction_never_fails (tau amp ub tf td : ℚ) :
    (ExpDecayCurrent.initE tau amp = .ok (ExpDecayCurrent.init tau amp))
    ∧ STPTransformer.initE ub tf td = .ok (STPTransformer.init ub tf td) :=
  ⟨rfl, rfl⟩

/-- C5: for every variant, `reset` is idempotent on every state, and after
an arbitrary prior sequence of step calls from construction, `reset`
restores every state value to its construction-time initial value
(`i = 0` for `ExpDecayCurrent`, where the post-reset object equals the
freshly constructed one exactly; every component of `x` equal to 1 and of
`u` equal to `u_base` for `STPTransformer`; trivially for the stateless
`SpikeCurrent`). -/
theorem claim5_reset_idempotent_and_initial :
    (∀ c : ExpDecayCurrent, c.reset.reset = c.reset)
    ∧ (∀ t : STPTransformer, t.reset.reset = t.reset)
    ∧ (∀ c : SpikeCurrent, c.reset.reset = c.reset)
    ∧ (∀ (tau amp : ℚ) (ss : List (List Bool)),
        ((ExpDecayCurrent.init tau amp).run ss).reset = ExpDecayCurrent.init tau amp)
    ∧ (∀ (ub tf td : ℚ) (ss : List (List Bool)),
        PTensor.allVal 1 (((STPTransformer.init ub tf td).run ss).reset).x ∧
          PTensor.allVal ub (((STPTransformer.init ub tf td).run ss).reset).u)
    ∧ ∀ amp : ℚ, (SpikeCurrent.init amp).reset = SpikeCurrent.init amp :=
  ⟨expReset_idem, stpReset_idem, spikeReset_idem, expResetAfterRun, stpResetAfterRun,
   fun _ => rfl⟩

/-- C7 counterexample: after a step with a batched input of shape `[4]` has
established a length-4 tensor state, `reset` replaces `i` by the Python
scalar `0` rather than a length-4 tensor of zeros: the established shape is
not preserved. -/
theorem claim7_counterexample :
    ((((ExpDecayCurrent.init 2 1).forward [false, false, false, false]).1).i
      = PTensor.tensor [0, 0, 0, 0])
    ∧ (((((ExpDecayCurrent.init 2 1).forward [false, false, false, false]).1).reset).i
      = PTensor.scalar 0)
    ∧ PTensor.scalar 0 ≠ PTensor.tensor [0, 0, 0, 0] := by
  refine ⟨?_, by rfl, by decide⟩
  norm_num [ExpDecayCurrent.init, expForward_scalar, expStep, boolFloat]

/-- C7 amended: `reset` sets `i` to the scalar `0` — the construction-time
initial value, so every component of the state is 0 — but it discards any
established tensor shape (the shape is re-established by broadcasting on
the next step). -/
theorem claim7_reset_scalar_zero (c : ExpDecayCurrent) :
    c.reset.i = PTensor.scalar 0 := rfl

/-- C8 counterexample: the claim says a spike sample of *any* different
shape fails with a shape error and leaves the state unmodified.  It does
not: after establishing the shape `[4]` (state `i = [1,1,1,1]` after one
spike step), a sample of the different shape `[1]` broadcasts, exactly as
in torch: the call succeeds, returns a current, and mutates the state to
`[2,2,2,2]`. -/
theorem claim8_counterexample :
    (((ExpDecayCurrent.init 2 1).forward [true, true, true, true]).1
      = ⟨2, 1, .tensor [1, 1, 1, 1]⟩)
    ∧ (ExpDecayCurrent.forward ⟨2, 1, .tensor [1, 1, 1, 1]⟩ [true]
      = (⟨2, 1, .tensor [2, 2, 2, 2]⟩, .ok (.tensor [2, 2, 2, 2])))
    ∧ ((ExpDecayCurrent.forward ⟨2, 1, .tensor [1, 1, 1, 1]⟩ [true]).2
        ≠ .error PyErr.shapeMismatch)
    ∧ (⟨2, 1, .tensor [2, 2, 2, 2]⟩ : ExpDecayCurrent) ≠ ⟨2, 1, .tensor [1, 1, 1, 1]⟩ := by
  have hb : ExpDecayCurrent.forward ⟨2, 1, .tensor [1, 1, 1, 1]⟩ [true]
      = (⟨2, 1, .tensor [2, 2, 2, 2]⟩, .ok (.tensor [2, 2, 2, 2])) := by
    rw [expForward_bcast1 2 1 [1, 1, 1, 1] true (by decide)]
    norm_num [expStep, boolFloat]
  refine ⟨?_, hb, ?_, by decide⟩
  · norm_num [ExpDecayCurrent.init, expForward_scalar, expStep, boolFloat]
  · rw [hb]
    simp

/-- C8 amended: for both stateful variants with an established tensor state
shape, a `forward` call with a spike batch of a different length returns a
shape error and leaves the state exactly unmodified, *provided the batch
length is not 1*: a length-1 batch instead broadcasts against the
established state, as the counterexample shows. -/
theorem claim8_shape_mismatch (tau amp ub tf td : ℚ) (l lx lu : List ℚ)
    (bs : List Bool) (h1 : l.length ≠ bs.length) (h2 : lx.length ≠ bs.length)
    (hb : bs.length ≠ 1) (hlen : lu.length = lx.length) :
    (ExpDecayCurrent.forward ⟨tau, amp, .tensor l⟩ bs
      = (⟨tau, amp, .tensor l⟩, .error .shapeMismatch))
    ∧ STPTransformer.forward ⟨ub, tf, td, .tensor lx, .tensor lu⟩ bs
      = (⟨ub, tf, td, .tensor lx, .tensor lu⟩, .error .shapeMismatch) :=
  ⟨expForward_mismatch tau amp l bs h1 hb, stpForward_mismatch ub tf td lx lu bs h2 hb hlen⟩

theorem claim8_witness :
    (([0, 0, 0, 0] : List ℚ).length ≠ [true, true, true, true, true].length)
    ∧ (([1, 1, 1, 1] : List ℚ).length ≠ [true, true, true, true, true].length)
    ∧ ([true, true, true, true, true].length ≠ 1)
    ∧ (([1 / 2, 1 / 2, 1 / 2, 1 / 2] : List ℚ).length = ([1, 1, 1, 1] : List ℚ).length)
    ∧ (ExpDecayCurrent.forward ⟨2, 1, .tensor [0, 0, 0, 0]⟩ [true, true, true, true, true]
        = (⟨2, 1, .tensor [0, 0, 0, 0]⟩, .error .shapeMismatch))
    ∧ STPTransformer.forward
        ⟨1 / 2, 50, 100, .tensor [1, 1, 1, 1], .tensor [1 / 2, 1 / 2, 1 / 2, 1 / 2]⟩
        [true, true, true, true, true]
        = (⟨1 / 2, 50, 100, .tensor [1, 1, 1, 1], .tensor [1 / 2, 1 / 2, 1 / 2, 1 / 2]⟩,
           .error .shapeMismatch) := by
  refine ⟨by decide, by decide, by decide, by decide, ?_⟩
  exact claim8_shape_mismatch 2 1 (1 / 2) 50 100 [0, 0, 0, 0] [1, 1, 1, 1]
    [1 / 2, 1 / 2, 1 / 2, 1 / 2] [true, true, true, true, true]
    (by decide) (by decide) (by decide) (by decide)

/-- C9: for each variant, feeding two spike trains to the two units of one
batched instance yields, at every timestep, the pair of exactly the values
of the per-unit trajectories, and feeding each train to its own single-unit
instance with the same parameters yields exactly those same per-unit
trajectory values: batched and individual runs agree at every timestep for
each unit. -/
theorem claim9_batch_independence (tau amp ubase tf td amp2 : ℚ) (sa sb : List Bool) :
    (ExpDecayCurrent.runOuts (ExpDecayCurrent.init tau amp) (pairIn sa sb)
      = List.zipWith (fun va vb => Except.ok (PTensor.tensor [va, vb]))
          (expTraj tau amp 0 sa) (expTraj tau amp 0 sb))
    ∧ (ExpDecayCurrent.runOuts (ExpDecayCurrent.init tau amp) (singleIn sa)
      = (expTraj tau amp 0 sa).map (fun v => Except.ok (PTensor.tensor [v])))
    ∧ (ExpDecayCurrent.runOuts (ExpDecayCurrent.init tau amp) (singleIn sb)
      = (expTraj tau amp 0 sb).map (fun v => Except.ok (PTensor.tensor [v])))
    ∧ (STPTransformer.runOuts (STPTransformer.init ubase tf td) (pairIn sa sb)
      = List.zipWith (fun va vb => Except.ok (PTensor.tensor [va, vb]))
          (stpTraj ubase tf td 1 ubase sa) (stpTraj ubase tf td 1 ubase sb))
    ∧ (STPTransformer.runOuts (STPTransformer.init ubase tf td) (singleIn sa)
      = (stpTraj ubase tf td 1 ubase sa).map (fun v => Except.ok (PTensor.tensor [v])))
    ∧ (STPTransformer.runOuts (STPTransformer.init ubase tf td) (singleIn sb)
      = (stpTraj ubase tf td 1 ubase sb).map (fun v => Except.ok (PTensor.tensor [v])))
    ∧ (SpikeCurrent.runOuts (SpikeCurrent.init amp2) (pairIn sa sb)
      = List.zipWith (fun va vb => PTensor.tensor [va, vb])
          (spikeTraj amp2 sa) (spikeTraj amp2 sb))
    ∧ (SpikeCurrent.runOuts (SpikeCurrent.init amp2) (singleIn sa)
      = (spikeTraj amp2 sa).map (fun v => PTensor.tensor [v]))
    ∧ SpikeCurrent.runOuts (SpikeCurrent.init amp2) (singleIn sb)
      = (spikeTraj amp2 sb).map (fun v => PTensor.tensor [v]) :=
  ⟨expRunPair0 tau amp sa sb, expRunSingle0 tau amp sa, expRunSingle0 tau amp sb,
   stpRunPair0 ubase tf td sa sb, stpRunSingle0 ubase tf td sa, stpRunSingle0 ubase tf td sb,
   spikeRunPair amp2 sa sb, spikeRunSingle amp2 sa, spikeRunSingle amp2 sb⟩

/-- C10: for every variant, the construction-time initial state is a fixed
point of the no-spike step: a `forward` call whose spike indicator is false
for every unit returns a current of exactly 0 for every unit and leaves
every state value at its initial value (0 for `ExpDecayCurrent`; 1 and
`u_base` for `STPTransformer`; `SpikeCurrent` is stateless). -/
theorem claim10_initial_fixed_point (tau amp ub tf td amp2 : ℚ) (n : ℕ) :
    (ExpDecayCurrent.forward (ExpDecayCurrent.init tau amp) (List.replicate n false)
      = (⟨tau, amp, .tensor (List.replicate n 0)⟩, .ok (.tensor (List.replicate n 0))))
    ∧ (STPTransformer.forward (STPTransformer.init ub tf td) (List.replicate n false)
      = (⟨ub, tf, td, .tensor (List.replicate n 1), .tensor (List.replicate n ub)⟩,
         .ok (.tensor (List.replicate n 0))))
    ∧ SpikeCurrent.forward (SpikeCurrent.init amp2) (List.replicate n false)
      = .tensor (List.replicate n 0) := by
  refine ⟨?_, ?_, ?_⟩
  · rw [show ExpDecayCurrent.init tau amp = ⟨tau, amp, .scalar 0⟩ from rfl,
      expForward_scalar]
    simp [List.map_replicate, expStep_zero, boolFloat]
  · rw [show STPTransformer.init ub tf td = ⟨ub, tf, td, .scalar 1, .scalar ub⟩ from rfl,
      stpForward_scalar]
    simp [List.map_replicate, boolFloat, stpStepX_init, stpStepU_init, stpStepOut_noSpike]
  · simp [SpikeCurrent.forward, SpikeCurrent.init, List.map_replicate, boolFloat]

end SpikingFlow
